import Mathlib

set_option maxRecDepth 8192

/-!
Shallow embedding of src/chip8.c (a partially implemented CHIP-8 interpreter)
and verification of the specification claims against it.

Machine integers are modelled as Nat with explicit truncation: uint8_t cells
hold values below 256, uint16_t values are reduced modulo 65536 where the C
code truncates.  Byte arrays are modelled as total functions Nat -> Nat;
two-dimensional arrays as Nat -> Nat -> Nat.
-/

namespace Chip8C

/-- The 16 x 5 font byte table from add_fonts_to_mem in src/chip8.c
(glyphs 0 through F, five bytes each). -/
def fontData : List (List Nat) := [
  [0xF0, 0x90, 0x90, 0x90, 0xF0],
  [0x20, 0x60, 0x20, 0x20, 0x70],
  [0xF0, 0x10, 0xF0, 0x80, 0xF0],
  [0xF0, 0x10, 0xF0, 0x10, 0xF0],
  [0x90, 0x90, 0xF0, 0x10, 0x10],
  [0xF0, 0x80, 0xF0, 0x10, 0xF0],
  [0xF0, 0x80, 0xF0, 0x90, 0xF0],
  [0xF0, 0x10, 0x20, 0x40, 0x40],
  [0xF0, 0x90, 0xF0, 0x90, 0xF0],
  [0xF0, 0x90, 0xF0, 0x10, 0xF0],
  [0xF0, 0x90, 0xF0, 0x90, 0x90],
  [0xE0, 0x90, 0xE0, 0x90, 0xE0],
  [0xF0, 0x80, 0x80, 0x80, 0xF0],
  [0xE0, 0x90, 0x90, 0x90, 0xE0],
  [0xF0, 0x80, 0xF0, 0x80, 0xF0],
  [0xF0, 0x80, 0xF0, 0x80, 0x80]]

/-- Embedding of add_fonts_to_mem: the C double loop
for ii in 0..15, for jj in 0..4: mem[80 + ii*5 + jj] = fontData[ii][jj],
modelled as a fold of single-cell updates over the same index ranges. -/
def add_fonts_to_mem (mem : Nat → Nat) : Nat → Nat :=
  (List.range 16).foldl (fun m ii =>
    (List.range 5).foldl (fun m2 jj =>
      fun a => if a = 80 + ii * 5 + jj then (fontData.getD ii []).getD jj 0 else m2 a) m) mem

/-- Embedding of struct stack: a uint16_t array m[4096] (modelled as a total
function) together with the uint16_t needle index. -/
structure Stack where
  m : Nat → Nat
  needle : Nat

/-- The declared length of the C array uint16_t m[4096] inside struct stack. -/
def stackArrayLen : Nat := 4096

/-- Embedding of push_stack: if needle < UINT16_MAX (65535) the value is
stored at m[needle] and needle is incremented, otherwise only a debug
message is printed and the stack is left unchanged.  The stored value is a
uint16_t, hence the modulo 65536. -/
def push_stack (s : Stack) (val : Nat) : Stack :=
  if s.needle < 65535 then
    { m := fun i => if i = s.needle then val % 65536 else s.m i, needle := s.needle + 1 }
  else s

/-- Embedding of pop_stack: if needle > 0 it reads m[needle] (note: not
m[needle - 1]) and decrements needle; otherwise it prints a debug message
and returns 0 with the stack unchanged. -/
def pop_stack (s : Stack) : Nat × Stack :=
  if s.needle > 0 then (s.m s.needle, { s with needle := s.needle - 1 })
  else (0, s)

/-- Embedding of char_to_val: the switch over the host character code
(ASCII values of the characters in the C case labels), with default 16. -/
def char_to_val : Int → Nat
  | 49 => 0
  | 50 => 1
  | 51 => 2
  | 52 => 3
  | 113 => 4
  | 119 => 5
  | 101 => 6
  | 114 => 7
  | 97 => 8
  | 115 => 9
  | 100 => 10
  | 102 => 11
  | 122 => 12
  | 120 => 13
  | 99 => 14
  | 118 => 15
  | _ => 16

/-- The ASCII codes of the 16 characters recognized by char_to_val, in the
order of the C switch cases: 1 2 3 4 q w e r a s d f z x c v. -/
def keypadChars : List Int :=
  [49, 50, 51, 52, 113, 119, 101, 114, 97, 115, 100, 102, 122, 120, 99, 118]

/-- The interpreter state local to main: the 4096-byte memory, the
display[32][64] buffer (row, column), the program counter and the remaining
scalar locals.  SDL windowing state is external I/O glue and is not part of
the core state. -/
structure Machine where
  mem : Nat → Nat
  display : Nat → Nat → Nat
  pc : Nat
  reg_index : Nat
  delay_timer : Nat
  sound_timer : Nat

/-- Embedding of the fetch in the main loop:
instr = mem[pc] << 8 | mem[pc + 1], truncated to uint16_t. -/
def fetch (s : Machine) : Nat :=
  (s.mem s.pc <<< 8 ||| s.mem (s.pc + 1)) % 65536

/-- The operand fields computed in the decode section of the main loop. -/
structure Decoded where
  op : Nat
  X : Nat
  Y : Nat
  N : Nat
  NN : Nat
  NNN : Nat

/-- Embedding of the decode section of the main loop: op = instr & 0xF000,
X = instr & 0x0F00, Y = instr & 0x00F0, N = instr & 0x000F,
NN = instr & 0x00FF, NNN = instr & 0x0FFF.  Note that the C code applies
no right shift to any of these fields. -/
def decode (instr : Nat) : Decoded :=
  { op := instr &&& 0xF000
    X := instr &&& 0x0F00
    Y := instr &&& 0x00F0
    N := instr &&& 0x000F
    NN := instr &&& 0x00FF
    NNN := instr &&& 0x0FFF }

/-- Embedding of the execute section of the main loop: switch (instr) with a
single case 0x00E0 whose body is empty (the clear-screen action is not
implemented), so every instruction leaves the state unchanged. -/
def execute (instr : Nat) (s : Machine) : Machine :=
  if instr = 0x00E0 then s else s

/-- One iteration of the interpreter loop in main: fetch the word at pc,
advance pc by 2 (with uint16_t wraparound), then execute.  The loop also
computes decode instr, but the switch never reads those fields. -/
def step (s : Machine) : Machine :=
  execute (fetch s) { s with pc := (s.pc + 2) % 65536 }

/-- The state right after main's initialization: zeroed memory with the font
table copied in by the single call add_fonts_to_mem(mem), a zeroed display,
pc = 512 and zeroed scalars. -/
def initMachine : Machine :=
  { mem := add_fonts_to_mem fun _ => 0
    display := fun _ _ => 0
    pc := 512
    reg_index := 0
    delay_timer := 0
    sound_timer := 0 }

/-- Embedding of the assignment mem[80] = 0xF0 on the last line of main
(after the interpreter loop). -/
def final_mem_write (mem : Nat → Nat) : Nat → Nat :=
  fun a => if a = 80 then 0xF0 else mem a

/-- The empty stack used as a concrete test state: all slots zero, depth 0. -/
def emptyStack : Stack := { m := fun _ => 0, needle := 0 }

/-- A stack whose depth equals the declared array length 4096, all slots
zero. -/
def fullStack : Stack := { m := fun _ => 0, needle := 4096 }

/-- Helper: the execute switch never changes the state, whatever the
instruction word is. -/
theorem execute_id (instr : Nat) (s : Machine) : execute instr s = s := by
  unfold execute
  split <;> rfl

/-- Helper: a big-endian byte pair assembled with shift and bitwise or,
then truncated to uint16_t, equals 256 times the high byte plus the low
byte. -/
theorem shift_or_mod_eq (a b : Nat) (h1 : a < 256) (h2 : b < 256) :
    (a <<< 8 ||| b) % 65536 = 256 * a + b := by
  have e1 : a <<< 8 = 2 ^ 8 * a := by rw [Nat.shiftLeft_eq]; ring
  have hb : b < 2 ^ 8 := by simpa using h2
  have e2 : a <<< 8 ||| b = 2 ^ 8 * a + b := by
    rw [e1, ← Nat.mul_add_lt_is_or hb a]
  have hlt : 2 ^ 8 * a + b < 65536 := by simp only [pow_succ, pow_zero]; omega
  rw [e2, Nat.mod_eq_of_lt hlt]
  norm_num

/-- Helper: conjunction with a four-bit mask placed at bit position k keeps
the masked nibble in place: it equals the nibble value shifted back up. -/
theorem and_nibble_shift (w k : Nat) :
    w &&& ((2 ^ 4 - 1) <<< k) = ((w >>> k) % 2 ^ 4) <<< k := by
  apply Nat.eq_of_testBit_eq
  intro j
  simp only [Nat.testBit_and, Nat.testBit_shiftLeft, Nat.testBit_mod_two_pow,
    Nat.testBit_shiftRight, Nat.testBit_two_pow_sub_one]
  by_cases h : k ≤ j
  · have hkj : k + (j - k) = j := by omega
    simp [h, hkj]
    by_cases h2 : j - k < 4 <;> simp [h2, Bool.and_comm]
  · simp [h]

/-- Helper: one loop iteration never changes the memory array (the switch
body is empty). -/
theorem step_mem (s : Machine) : (step s).mem = s.mem := by
  unfold step
  rw [execute_id]

/-- Helper: any number of loop iterations leaves the memory array
unchanged. -/
theorem iterate_step_mem (n : Nat) : ∀ s : Machine, (step^[n] s).mem = s.mem := by
  induction n with
  | zero => intro s; rfl
  | succ k ih =>
    intro s
    rw [Function.iterate_succ_apply, ih (step s), step_mem]

/-- A machine whose memory holds the bytes 0x12 0x34 at the program
counter 512 and zeros elsewhere. -/
def sampleMachine : Machine :=
  { mem := fun a => if a = 512 then 0x12 else if a = 513 then 0x34 else 0
    display := fun _ _ => 0
    pc := 512
    reg_index := 0
    delay_timer := 0
    sound_timer := 0 }

/-- C10: char_to_val never returns more than 16; it maps the 16 recognized
characters (ASCII codes in keypadChars, in switch order) to the distinct key
codes 0 through 15, and returns the out-of-range sentinel 16 on every other
input. -/
theorem char_to_val_spec :
    (∀ c : Int, char_to_val c ≤ 16) ∧
    keypadChars.map char_to_val = [0, 1, 2, 3, 4, 5, 6, 7, 8, 9, 10, 11, 12, 13, 14, 15] ∧
    (∀ c : Int, c ∉ keypadChars → char_to_val c = 16) := by
  refine ⟨?_, by decide, ?_⟩
  · intro c
    unfold char_to_val
    split <;> decide
  · intro c hc
    unfold char_to_val
    split
    all_goals first | rfl | exact absurd (by decide) hc

/-- Witness for C10 at the concrete unrecognized input 0 (the NUL
character, not one of the sixteen key characters). -/
theorem char_to_val_spec_witness :
    ((0 : Int) ∉ keypadChars) ∧ char_to_val 0 = 16 :=
  ⟨by decide, char_to_val_spec.2.2 0 (by decide)⟩

/-- C2 (failing evaluation): pushing 5 onto the empty stack and popping
returns 0, not 5 — pop_stack reads m[needle] although push_stack left the
value at m[needle - 1] — while the depth does round-trip to 0. -/
theorem push_pop_not_lifo :
    (pop_stack (push_stack emptyStack 5)).1 = 0 ∧
    (pop_stack (push_stack emptyStack 5)).1 ≠ 5 ∧
    (pop_stack (push_stack emptyStack 5)).2.needle = emptyStack.needle := by
  decide

/-- C5 (failing evaluation): with the depth already equal to the declared
array length 4096, push_stack does not fail or leave the stack unchanged —
the guard only triggers at needle = 65535 — so it stores the value at the
out-of-bounds index 4096 and increments the depth; meanwhile 12 pushes from
the empty stack do all succeed. -/
theorem push_past_capacity :
    fullStack.needle = stackArrayLen ∧
    (push_stack fullStack 7).needle = stackArrayLen + 1 ∧
    (push_stack fullStack 7).m stackArrayLen = 7 ∧
    ((fun s => push_stack s 7)^[12] emptyStack).needle = 12 := by
  decide

/-- C6 counterexample: popping the empty stack does return a value — the
in-band sentinel 0 with the depth left at 0 — and its result is
indistinguishable from popping a stack onto which 0 was just pushed, so no
StackUnderflow failure is surfaced to the caller. -/
theorem pop_empty_returns_value :
    (pop_stack emptyStack).1 = 0 ∧
    (pop_stack emptyStack).2.needle = 0 ∧
    (pop_stack emptyStack).1 = (pop_stack (push_stack emptyStack 0)).1 := by
  decide

/-- C6 (amended): popping an empty stack returns the sentinel value 0 and
leaves the stack unchanged (the depth stays 0 rather than wrapping around),
and popping a nonempty stack decrements the depth by exactly 1. -/
theorem pop_empty_behavior (s : Stack) :
    (s.needle = 0 → pop_stack s = (0, s)) ∧
    (0 < s.needle → (pop_stack s).2.needle = s.needle - 1) := by
  constructor
  · intro h
    simp [pop_stack, h]
  · intro h
    simp [pop_stack, h]

/-- Witness for C6 (amended) at the concrete empty stack and at a concrete
stack of depth 4096. -/
theorem pop_empty_behavior_witness :
    pop_stack emptyStack = (0, emptyStack) ∧
    (pop_stack fullStack).2.needle = 4095 :=
  ⟨(pop_empty_behavior emptyStack).1 rfl, (pop_empty_behavior fullStack).2 (by decide)⟩

/-- C1: in every iteration of the interpreter loop the instruction word is
the big-endian combination of the memory bytes at pc and pc + 1 (high byte
at pc), and the program counter has already been advanced by 2 (with
uint16_t wraparound) in the state handed to the execute switch, so a jump
implemented there could still overwrite it. -/
theorem fetch_bigendian_and_advance (s : Machine)
    (h1 : s.mem s.pc < 256) (h2 : s.mem (s.pc + 1) < 256) :
    fetch s = 256 * s.mem s.pc + s.mem (s.pc + 1) ∧
    step s = execute (fetch s) { s with pc := (s.pc + 2) % 65536 } ∧
    (step s).pc = (s.pc + 2) % 65536 := by
  refine ⟨?_, rfl, ?_⟩
  · unfold fetch
    exact shift_or_mod_eq _ _ h1 h2
  · unfold step
    rw [execute_id]

/-- Witness for C1 at a concrete machine holding the bytes 0x12 0x34 at
pc = 512: the fetched word is 0x1234 and pc becomes 514. -/
theorem fetch_bigendian_and_advance_witness :
    sampleMachine.mem sampleMachine.pc < 256 ∧
    (fetch sampleMachine = 256 * sampleMachine.mem sampleMachine.pc +
        sampleMachine.mem (sampleMachine.pc + 1) ∧
      step sampleMachine = execute (fetch sampleMachine)
        { sampleMachine with pc := (sampleMachine.pc + 2) % 65536 } ∧
      (step sampleMachine).pc = (sampleMachine.pc + 2) % 65536) :=
  ⟨by decide, fetch_bigendian_and_advance sampleMachine (by decide) (by decide)⟩

/-- C3 counterexample: at the instruction word 0x0100 the decoded X field
is 256, not the claimed (word & 0x0F00) >> 8 = 1, and it lies outside the
0 to 15 range: the C code never applies the right shift. -/
theorem decode_X_unshifted :
    (decode 0x0100).X = 256 ∧
    (decode 0x0100).X ≠ (0x0100 &&& 0x0F00) >>> 8 ∧
    15 < (decode 0x0100).X := by
  decide

/-- C3 (amended): the decoder extracts op = word & 0xF000,
x = word & 0x0F00, y = word & 0x00F0, n = word & 0x000F, nn = word & 0x00FF
and nnn = word & 0x0FFF with no right shift anywhere, so op, x and y keep
their original bit positions (x is the second nibble times 256, y the third
nibble times 16) while n, nn and nnn are the low 4, 8 and 12 bits. -/
theorem decode_fields (w : Nat) :
    (decode w).op = w / 4096 % 16 * 4096 ∧
    (decode w).X = w / 256 % 16 * 256 ∧
    (decode w).Y = w / 16 % 16 * 16 ∧
    (decode w).N = w % 16 ∧
    (decode w).NN = w % 256 ∧
    (decode w).NNN = w % 4096 := by
  refine ⟨?_, ?_, ?_, ?_, ?_, ?_⟩
  · show w &&& 0xF000 = w / 4096 % 16 * 4096
    have h := and_nibble_shift w 12
    rw [show ((2 ^ 4 - 1) <<< 12 : Nat) = 0xF000 from rfl] at h
    rw [h, Nat.shiftRight_eq_div_pow, Nat.shiftLeft_eq]
    norm_num
  · show w &&& 0x0F00 = w / 256 % 16 * 256
    have h := and_nibble_shift w 8
    rw [show ((2 ^ 4 - 1) <<< 8 : Nat) = 0x0F00 from rfl] at h
    rw [h, Nat.shiftRight_eq_div_pow, Nat.shiftLeft_eq]
    norm_num
  · show w &&& 0x00F0 = w / 16 % 16 * 16
    have h := and_nibble_shift w 4
    rw [show ((2 ^ 4 - 1) <<< 4 : Nat) = 0x00F0 from rfl] at h
    rw [h, Nat.shiftRight_eq_div_pow, Nat.shiftLeft_eq]
    norm_num
  · show w &&& 0x000F = w % 16
    have h := Nat.and_pow_two_sub_one_eq_mod w 4
    norm_num at h
    exact h
  · show w &&& 0x00FF = w % 256
    have h := Nat.and_pow_two_sub_one_eq_mod w 8
    norm_num at h
    exact h
  · show w &&& 0x0FFF = w % 4096
    have h := Nat.and_pow_two_sub_one_eq_mod w 12
    norm_num at h
    exact h

/-- A machine about to execute the clear-screen word 0x00E0 while the
display pixel at row 0, column 0 is lit. -/
def clearScreenMachine : Machine :=
  { mem := fun a => if a = 513 then 0xE0 else 0
    display := fun r c => if r = 0 ∧ c = 0 then 1 else 0
    pc := 512
    reg_index := 0
    delay_timer := 0
    sound_timer := 0 }

/-- C7 (failing evaluation): the fetched word is exactly 0x00E0, yet one
step leaves the display buffer untouched — the lit pixel at (0, 0) is still
lit afterwards — because the case 0x00E0 body in the switch is empty. -/
theorem clear_screen_unimplemented :
    fetch clearScreenMachine = 0x00E0 ∧
    (step clearScreenMachine).display = clearScreenMachine.display ∧
    clearScreenMachine.display 0 0 = 1 ∧
    (step clearScreenMachine).display 0 0 = 1 := by
  refine ⟨by decide, ?_, by decide, by decide⟩
  unfold step
  rw [execute_id]

/-- A machine about to fetch the word 0x1234, which matches no case of the
execute switch. -/
def unknownInstrMachine : Machine :=
  { mem := fun a => if a = 512 then 0x12 else if a = 513 then 0x34 else 0
    display := fun _ _ => 0
    pc := 512
    reg_index := 0
    delay_timer := 0
    sound_timer := 0 }

/-- C9 counterexample: the fetched word 0x1234 matches no recognized opcode
pattern, yet the step returns an ordinary successor state — identical to
the input except for the pc advance — and no UnknownInstruction outcome
exists anywhere in the executor, whose result type is just the machine
state. -/
theorem unknown_instruction_silent :
    fetch unknownInstrMachine = 0x1234 ∧
    fetch unknownInstrMachine ≠ 0x00E0 ∧
    step unknownInstrMachine = { unknownInstrMachine with pc := 514 } := by
  refine ⟨by decide, by decide, ?_⟩
  unfold step
  rw [execute_id]
  rfl

/-- C9 (amended): every instruction word — recognized or not — is silently
ignored: the step only advances the program counter, surfaces no
UnknownInstruction value to any caller, and does not halt. -/
theorem step_silently_continues (s : Machine) :
    step s = { s with pc := (s.pc + 2) % 65536 } := by
  unfold step
  rw [execute_id]

/-- C8: the font table is written into memory at offset 0x50 = 80 by the
single add_fonts_to_mem call of main's initialization, and the glyph bytes
at 80 + i*5 + j keep exactly their fontData values after any number of
interpreter steps, and even after the trailing mem[80] = 0xF0 assignment,
which rewrites the value 0xF0 the glyph for 0 already starts with. -/
theorem font_immutable (n : Nat) :
    ∀ i, i < 16 → ∀ j, j < 5 →
      (step^[n] initMachine).mem (80 + i * 5 + j) = (fontData.getD i []).getD j 0 ∧
      final_mem_write ((step^[n] initMachine).mem) (80 + i * 5 + j) =
        (fontData.getD i []).getD j 0 := by
  intro i hi j hj
  have hmem := iterate_step_mem n initMachine
  have key : ∀ a, a < 16 → ∀ b, b < 5 →
      initMachine.mem (80 + a * 5 + b) = (fontData.getD a []).getD b 0 ∧
      final_mem_write initMachine.mem (80 + a * 5 + b) =
        (fontData.getD a []).getD b 0 := by decide
  rw [hmem]
  exact key i hi j hj

/-- Witness for C8 at step count 7 and glyph byte (2, 3): byte 93 holds
0x80 (fontData[2][3]) after seven loop iterations and after the final
memory write. -/
theorem font_immutable_witness :
    (2 < 16 ∧ 3 < 5) ∧
    ((step^[7] initMachine).mem (80 + 2 * 5 + 3) = (fontData.getD 2 []).getD 3 0 ∧
      final_mem_write ((step^[7] initMachine).mem) (80 + 2 * 5 + 3) =
        (fontData.getD 2 []).getD 3 0) :=
  ⟨⟨by decide, by decide⟩, font_immutable 7 2 (by decide) 3 (by decide)⟩

/-- Modelled from the spec: the draw (DXYN) opcode is missing from
src/chip8.c — only the 64 x 32 display buffer is declared there — so the
sprite compositing rule is taken from the specification: a sprite is 8
pixels wide and sprite.length pixels tall, drawn at (x0 mod 64, y0 mod 32)
with columns wrapping modulo 64 and rows clipped at the bottom edge, and
bit 7 - i of sprite row j lands on column x0 mod 64 + i.  spriteHit decides
whether the sprite places a set bit on the pixel at column px, row py. -/
def spriteHit (x0 y0 : Nat) (sprite : List Nat) (px py : Nat) : Bool :=
  (List.range sprite.length).any fun j =>
    decide (py = y0 % 32 + j) && decide (y0 % 32 + j < 32) &&
      ((List.range 8).any fun i =>
        decide (px = (x0 % 64 + i) % 64) && (sprite.getD j 0).testBit (7 - i))

/-- Modelled from the spec: drawSprite XOR-composites the sprite onto the
display (each set sprite bit toggles its pixel; within one draw every
visible sprite bit targets a distinct pixel) and returns the new display
together with the collision flag VF, which is 1 exactly when some drawn
pixel was set before the draw, i.e. was unset by the XOR. -/
def drawSprite (d : Nat → Nat → Bool) (x0 y0 : Nat) (sprite : List Nat) :
    (Nat → Nat → Bool) × Bool :=
  (fun px py => if spriteHit x0 y0 sprite px py then !(d px py) else d px py,
   (List.range 64).any fun px => (List.range 32).any fun py =>
     spriteHit x0 y0 sprite px py && d px py)

/-- The all-dark 64 x 32 display. -/
def zeroDisplay : Nat → Nat → Bool := fun _ _ => false

/-- C4 counterexample: drawing the one-row sprite whose byte is 0x00 twice
at (0, 0) on the all-zero display leaves the collision flag of the second
draw at 0, not the claimed 1 — a sprite with no set pixel never unsets
anything. -/
theorem draw_twice_vf_zero :
    (drawSprite (drawSprite zeroDisplay 0 0 [0]).1 0 0 [0]).2 = false := by
  decide

/-- C4 (amended, modelled from the spec): drawing the same sprite twice at
the same position with no intervening mutation restores every starting
display exactly (XOR self-cancellation); and the second draw sets VF to 1
provided some set sprite pixel lands, unclipped, on a pixel that was dark
in the original display — in particular whenever the display starts
all-zero and the sprite has at least one visible set pixel. -/
theorem draw_twice_involution (d : Nat → Nat → Bool) (x0 y0 : Nat) (sprite : List Nat) :
    (drawSprite (drawSprite d x0 y0 sprite).1 x0 y0 sprite).1 = d ∧
    (((List.range 64).any fun px => (List.range 32).any fun py =>
        spriteHit x0 y0 sprite px py && !(d px py)) = true →
      (drawSprite (drawSprite d x0 y0 sprite).1 x0 y0 sprite).2 = true) := by
  constructor
  · funext px py
    by_cases h : spriteHit x0 y0 sprite px py <;> simp [drawSprite, h]
  · intro h
    simp only [List.any_eq_true, Bool.and_eq_true] at h
    obtain ⟨px, hpx, py, hpy, hhit, hd⟩ := h
    show ((List.range 64).any fun qx => (List.range 32).any fun qy =>
      spriteHit x0 y0 sprite qx qy && (drawSprite d x0 y0 sprite).1 qx qy) = true
    simp only [List.any_eq_true, Bool.and_eq_true]
    refine ⟨px, hpx, py, hpy, hhit, ?_⟩
    simp [drawSprite, hhit, hd]

/-- Witness for C4 (amended) with the one-row sprite 0x80 at (0, 0) on the
all-zero display: the buffer returns to all-zero and the second draw
reports a collision. -/
theorem draw_twice_involution_witness :
    (drawSprite (drawSprite zeroDisplay 0 0 [128]).1 0 0 [128]).1 = zeroDisplay ∧
    (drawSprite (drawSprite zeroDisplay 0 0 [128]).1 0 0 [128]).2 = true :=
  ⟨(draw_twice_involution zeroDisplay 0 0 [128]).1,
   (draw_twice_involution zeroDisplay 0 0 [128]).2 (by decide)⟩

end Chip8C
